import Mathlib

/-!
Verification development for the zoom database layer (zoom/database.py) and
the group-closure resolver (zoom/users.py).

A SQL statement text is embedded as a list of tokens: literal text pieces,
positional placeholders (the pyformat %s marker) and named placeholders
(the pyformat %(key)s marker).  Python percent-formatting of such a text
against a tuple or a mapping is embedded as a total function returning
Except, where the error value stands for the TypeError or KeyError that
CPython raises on a malformed substitution.  Parameter values are embedded
by the Value type, which distinguishes exactly what translate inspects:
mappings (objects with an items attribute), non-string sequences, strings
and scalars, together with Python truthiness.
-/

namespace Zoom

/-- One token of a SQL statement text. -/
inductive Tok where
  | lit (s : String)
  | pos
  | named (key : String)
deriving DecidableEq, Repr

/-- A statement text, tokenized. -/
abbrev Command := List Tok

/-- A Python value as far as the database layer inspects it. -/
inductive Value where
  | int (n : Int)
  | str (s : String)
  | seq (elems : List Value)
  | map (entries : List (String × Value))
  | null

/-- Python truthiness of a Value, used by translate on the mapping test. -/
def truthy : Value → Bool
  | .int n => n != 0
  | .str s => !s.isEmpty
  | .seq l => !l.isEmpty
  | .map m => !m.isEmpty
  | .null => false

/-- hasattr(x, "items"): only mappings carry an items attribute here. -/
def hasItems : Value → Bool
  | .map _ => true
  | _ => false

/-- issequenceform from translate: a sequence type that is not a string. -/
def issequenceform : Value → Bool
  | .seq _ => true
  | _ => false

/-- Deterministic rendering of a string-valued mapping, standing in for the
Python str() of a dict; it is only reached when a %s marker is formatted
against a mapping, a degenerate case no claim depends on textually. -/
def dictRender (m : List (String × String)) : String :=
  String.intercalate ", " (m.map fun kv => kv.1 ++ ": " ++ kv.2)

/-- command % tuple_of_strings: each %s marker consumes the next string;
a named marker against a tuple, too few strings, or unconsumed strings
raise (TypeError in CPython), embedded as the error value. -/
def formatPos : Command → List String → Except Unit Command
  | [], [] => .ok []
  | [], _ :: _ => .error ()
  | .lit s :: rest, ps => (formatPos rest ps).map (.lit s :: ·)
  | .pos :: rest, p :: ps => (formatPos rest ps).map (.lit p :: ·)
  | .pos :: _, [] => .error ()
  | .named _ :: _, _ => .error ()

/-- command % mapping_of_strings: each %(key)s marker is replaced by the
string at key (KeyError when absent, embedded as the error value); a %s
marker formats the whole mapping. -/
def formatNamed (m : List (String × String)) : Command → Except Unit Command
  | [] => .ok []
  | .lit s :: rest => (formatNamed m rest).map (.lit s :: ·)
  | .pos :: rest => (formatNamed m rest).map (.lit (dictRender m) :: ·)
  | .named k :: rest =>
      match m.lookup k with
      | some v => (formatNamed m rest).map (.lit v :: ·)
      | none => .error ()

/-- Database.translate from zoom/database.py.  For the qmark paramstyle:
a single truthy mapping argument rewrites each named placeholder to a
:key marker and passes the mapping through; otherwise, when the first
argument is a non-string sequence, one ? marker per element of that first
argument is substituted, else one ? marker per argument; the argument
tuple is passed through.  For every other paramstyle the command is left
alone and a single truthy mapping argument is passed through, else the
argument tuple. -/
def translate (paramstyle : String) (command : Command) (args : List Value) :
    Except Unit (Command × Value) :=
  if paramstyle = "qmark" then
    match args with
    | [Value.map m] =>
        if !m.isEmpty then
          (formatNamed (m.map fun kv => (kv.1, ":" ++ kv.1)) command).map
            (fun c => (c, Value.map m))
        else
          (formatPos command (List.replicate args.length "?")).map
            (fun c => (c, Value.seq args))
    | Value.seq l :: _ =>
        (formatPos command (List.replicate l.length "?")).map
          (fun c => (c, Value.seq args))
    | _ =>
        (formatPos command (List.replicate args.length "?")).map
          (fun c => (c, Value.seq args))
  else
    match args with
    | [Value.map m] =>
        if !m.isEmpty then .ok (command, Value.map m)
        else .ok (command, Value.seq args)
    | _ => .ok (command, Value.seq args)

/-- ARRAY_SIZE from zoom/database.py: default fetchmany batch size. -/
def ARRAY_SIZE : Nat := 1000

/-- The observable state of a DB-API cursor right after a successful
execute call: rowcount, the column description (None when no row output),
the last inserted row id, and the pending result rows. -/
structure Cursor where
  rowcount : Int
  description : Option (List String)
  lastrowid : Option Int
  rows : List (List Value)

/-- Python truthiness of cursor.description: falsy when absent or empty. -/
def descriptionTruthy : Option (List String) → Bool
  | none => false
  | some cols => !cols.isEmpty

/-- A Result wraps the originating cursor fetch state (zoom/database.py
class Result); rows is what fetchmany has not yet consumed. -/
structure Result where
  rows : List (List Value)
  array_size : Nat

/-- cursor.fetchmany(n): the next batch and the remaining fetch state. -/
def fetchmany (n : Nat) (rows : List (List Value)) :
    List (List Value) × List (List Value) :=
  (rows.take n, rows.drop n)

/-- One full run of the iterator in Result.iter: repeatedly fetch batches
of size n until a batch comes back empty, returning the yielded rows and
the final (consumed) fetch state. -/
def iterRun (n : Nat) (rows : List (List Value)) :
    List (List Value) × List (List Value) :=
  if h : (rows.take n).isEmpty then ([], rows)
  else
    let step := iterRun n (rows.drop n)
    (rows.take n ++ step.1, step.2)
termination_by rows.length
decreasing_by
  simp only [List.isEmpty_iff, List.take_eq_nil_iff, not_or] at h
  have hlen : 0 < rows.length := List.length_pos.mpr h.2
  simp only [List.length_drop]
  omega

/-- Iterating a Result consumes it: the yielded rows together with the
Result left behind (its cursor advanced past everything fetched). -/
def Result.iter (r : Result) : List (List Value) × Result :=
  let run := iterRun r.array_size r.rows
  (run.1, { r with rows := run.2 })

/-- A single debug log entry: Database._execute formats the elapsed
milliseconds, the (translated) command and the call arguments into one
trace line; the three formatted fields are carried structurally. -/
structure LogEntry where
  elapsed : Nat
  command : Command
  args : List Value

/-- The mutable Database object state that _execute touches. -/
structure DBState where
  debug : Bool
  log : List LogEntry
  rowcount : Option Int
  lastrowid : Option Int

/-- The exceptions that can escape Database._execute: an unwrapped
formatting error raised by translate before the guarded block, or the
DatabaseException re-raised from the guarded block, whose payload is the
ERROR_TPL fields: the statement handed to the driver, the call arguments
and the underlying driver message. -/
inductive PyError where
  | translateError
  | databaseException (statement : Command) (args : List Value) (message : String)

/-- What an execute call hands back: a Result over the cursor, or the
last inserted row id when the statement produced no row output. -/
inductive ExecOutcome where
  | result (r : Result)
  | inserted (id : Option Int)

/-- Appending the trace line in the finally block: only when debug is on. -/
def appendLog (st : DBState) (elapsed : Nat) (command : Command)
    (args : List Value) : DBState :=
  if st.debug then
    { st with log := st.log ++ [⟨elapsed, command, args⟩] }
  else st

/-- Database._execute from zoom/database.py.  The backend parameter is
the bound cursor method (cursor.execute for execute, cursor.executemany
for execute_many): given the translated command and parameters it either
raises with a driver message or leaves the cursor in a final state.
First translate runs outside the guarded block, so its failure escapes
unwrapped and touches no state.  Then the method runs inside
try/except/else/finally: on failure a DatabaseException carrying the
translated command, the original arguments and the driver message is
raised after the finally block appends the trace line; on success
rowcount is recorded, the trace line is appended, and the outcome is
a Result when cursor.description is truthy, else the lastrowid. -/
def dbExecute (paramstyle : String)
    (backend : Command → Value → Except String Cursor)
    (elapsed : Nat) (st : DBState) (command : Command) (args : List Value) :
    DBState × Except PyError ExecOutcome :=
  match translate paramstyle command args with
  | .error _ => (st, .error .translateError)
  | .ok (cmd, params) =>
    match backend cmd params with
    | .error msg =>
        (appendLog st elapsed cmd args,
         .error (.databaseException cmd args msg))
    | .ok cursor =>
        let st1 := appendLog { st with rowcount := some cursor.rowcount }
          elapsed cmd args
        if descriptionTruthy cursor.description then
          (st1, .ok (.result ⟨cursor.rows, ARRAY_SIZE⟩))
        else
          ({ st1 with lastrowid := cursor.lastrowid },
           .ok (.inserted cursor.lastrowid))

/-- The exception raised by the database factory on an unknown engine. -/
inductive UnkownDatabaseException where
  | mk

/-- The two dialect classes the factory can instantiate. -/
inductive DatabaseBackend where
  | sqlite3Db
  | mysqlDb
deriving DecidableEq

/-- The database factory from zoom/database.py: engine sqlite3 builds a
Sqlite3Database, engine mysql builds a MySQLDatabase (autocommit is then
switched on, a connection side effect not modelled), anything else
raises UnkownDatabaseException. -/
def database (engine : String) : Except UnkownDatabaseException DatabaseBackend :=
  if engine = "sqlite3" then .ok .sqlite3Db
  else if engine = "mysql" then .ok .mysqlDb
  else .error .mk

/-- The body of the membership loop in get_memberships (zoom/users.py):
for one subgroup row (group_id, subgroup_id), when the subgroup side of the row is
the group being expanded and its parent is not already in the running
result, the expansion of that parent is appended.  The recursive expansion
at the next depth is passed in as expand. -/
def gmStep (expand : Nat → List Nat) (group : Nat) (result : List Nat)
    (p : Nat × Nat) : List Nat :=
  if group = p.2 ∧ p.1 ∉ result then result ++ expand p.1 else result

/-- get_memberships from zoom/users.py, with the remaining depth budget
made explicit: the source starts at depth 0 and recurses only while
depth < 10, which is fuel = 10 - depth here, so the top-level call has
fuel 10 and fuel 0 is the depth cutoff. -/
def get_memberships (memberships : List (Nat × Nat)) :
    Nat → Nat → List Nat
  | 0, group => [group]
  | fuel + 1, group =>
      memberships.foldl
        (gmStep (fun g => get_memberships memberships fuel g) group) [group]

/-- The id closure built by get_groups (zoom/users.py): the direct
memberships followed by the recursive expansion of every direct membership. -/
def group_id_closure (my_groups : List Nat) (subgroups : List (Nat × Nat)) :
    List Nat :=
  my_groups ++
    my_groups.foldl (fun acc g => acc ++ get_memberships subgroups 10 g) []

/-- Python str.strip with no argument: surrounding whitespace removed
from both ends, embedded structurally over the character list. -/
def strip (s : String) : String :=
  ⟨((s.data.dropWhile Char.isWhitespace).reverse.dropWhile
      Char.isWhitespace).reverse⟩

/-- get_groups from zoom/users.py, as a function of the three query
results it consumes: the direct group ids of the user (members query), the
(group_id, subgroup_id) rows (subgroups query) and the (id, name) rows
(groups query).  It scans the groups rows in order, trims each name, and
keeps the names whose id lies in the id closure. -/
def get_groups (my_groups : List Nat) (subgroups : List (Nat × Nat))
    (groupsTable : List (Nat × String)) : List String :=
  groupsTable.foldl
    (fun acc r =>
      if r.1 ∈ group_id_closure my_groups subgroups then acc ++ [strip r.2]
      else acc) []

/-- Modelled from the claim wording for the qmark translation contract:
if exactly one argument is supplied and it is a mapping, each named
placeholder is rewritten to the :key marker and the mapping is passed
through unchanged; otherwise every %s placeholder is replaced by the ?
marker, one per supplied scalar argument, or one per element of the
first argument when a single non-string sequence is supplied. -/
def translateQmarkClaimed (command : Command) (args : List Value) :
    Except Unit (Command × Value) :=
  match args with
  | [Value.map m] =>
      (formatNamed (m.map fun kv => (kv.1, ":" ++ kv.1)) command).map
        (fun c => (c, Value.map m))
  | [Value.seq l] =>
      (formatPos command (List.replicate l.length "?")).map
        (fun c => (c, Value.seq args))
  | _ =>
      (formatPos command (List.replicate args.length "?")).map
        (fun c => (c, Value.seq args))

/-- The amended qmark translation contract: the mapping branch asks for a
single NON-EMPTY mapping (an empty mapping falls through to the
positional branch), and the per-element placeholder count applies
whenever the FIRST argument is a non-string sequence, regardless of how
many further arguments are supplied. -/
def translateQmarkAmended (command : Command) (args : List Value) :
    Except Unit (Command × Value) :=
  match args.head? with
  | some (Value.map m) =>
      if args.length = 1 ∧ !m.isEmpty then
        (formatNamed (m.map fun kv => (kv.1, ":" ++ kv.1)) command).map
          (fun c => (c, Value.map m))
      else
        (formatPos command (List.replicate args.length "?")).map
          (fun c => (c, Value.seq args))
  | some (Value.seq l) =>
      (formatPos command (List.replicate l.length "?")).map
        (fun c => (c, Value.seq args))
  | _ =>
      (formatPos command (List.replicate args.length "?")).map
        (fun c => (c, Value.seq args))

/-- Order of first discovery of each id in a list, keeping first
occurrences; used to formalize the claimed discovery order of the group
closure. -/
def discovery_order (ids : List Nat) : List Nat :=
  ids.foldl (fun acc x => if x ∈ acc then acc else acc ++ [x]) []

/-- Modelled from the claim wording for get_groups: the distinct group
names in discovery order of the closure expansion, trimmed. -/
def get_groups_claimed (my_groups : List Nat) (subgroups : List (Nat × Nat))
    (groupsTable : List (Nat × String)) : List String :=
  (discovery_order (group_id_closure my_groups subgroups)).filterMap
    (fun g => (groupsTable.lookup g).map strip)

/-! Theorems. -/

/-- C5 counterexample: the claimed enumeration names sqlite, but the
factory rejects engine sqlite with UnkownDatabaseException and accepts
engine sqlite3 instead. -/
theorem database_sqlite_name_counterexample :
    database "sqlite" = .error .mk ∧ (database "sqlite").isOk = false
    ∧ database "sqlite3" = .ok .sqlite3Db :=
  ⟨rfl, rfl, rfl⟩

/-- C5 (amended): constructing a database succeeds exactly for the
engine names sqlite3 and mysql; every other name raises
UnkownDatabaseException. -/
theorem database_ok_iff_known_engine (engine : String) :
    (∃ b, database engine = .ok b) ↔ engine = "sqlite3" ∨ engine = "mysql" := by
  unfold database
  by_cases h1 : engine = "sqlite3" <;> by_cases h2 : engine = "mysql" <;>
    simp [h1, h2]

/-- C10: a failure inside translate (for example a placeholder count
mismatch on a qmark backend) is raised before the guarded execution
block, so it escapes unwrapped, the backend is never reached, and the
object state, the debug log included, is untouched even with debug
enabled. -/
theorem dbExecute_translate_failure_unwrapped (paramstyle : String)
    (backend : Command → Value → Except String Cursor) (elapsed : Nat)
    (st : DBState) (command : Command) (args : List Value)
    (h : translate paramstyle command args = .error ()) :
    dbExecute paramstyle backend elapsed st command args =
      (st, .error .translateError) := by
  simp [dbExecute, h]

/-- C10 witness: a qmark statement with two %s markers and one scalar
argument fails in translate and escapes unwrapped with no state change. -/
theorem dbExecute_translate_failure_unwrapped_witness :
    dbExecute "qmark" (fun _ _ => .error "boom") 7
        ⟨true, [], none, none⟩ [Tok.pos, Tok.pos] [Value.int 1] =
      (⟨true, [], none, none⟩, .error .translateError) :=
  dbExecute_translate_failure_unwrapped "qmark" (fun _ _ => .error "boom") 7
    ⟨true, [], none, none⟩ [Tok.pos, Tok.pos] [Value.int 1] rfl

/-- C2 counterexample: on a qmark backend the DatabaseException payload
carries the translated statement handed to the driver, not the original
statement text: the original [%s] arrives as [?]. -/
theorem dbExecute_error_payload_counterexample :
    (dbExecute "qmark" (fun _ _ => .error "boom") 0
        ⟨false, [], none, none⟩ [Tok.pos] [Value.int 5]).2 =
      .error (.databaseException [Tok.lit "?"] [Value.int 5] "boom")
    ∧ ([Tok.lit "?"] : Command) ≠ [Tok.pos]
    ∧ (dbExecute "qmark" (fun _ _ => .error "boom") 0
        ⟨false, [], none, none⟩ [Tok.pos] [Value.int 5]).2 ≠
      .error (.databaseException [Tok.pos] [Value.int 5] "boom") := by
  refine ⟨rfl, by decide, fun hcontra => ?_⟩
  rw [show (dbExecute "qmark" (fun _ _ => .error "boom") 0
        ⟨false, [], none, none⟩ [Tok.pos] [Value.int 5]).2 =
      Except.error (.databaseException [Tok.lit "?"] [Value.int 5] "boom")
    from rfl] at hcontra
  injection hcontra with h1
  injection h1 with h2 h3 h4
  exact absurd h2 (by decide)

/-- C2 (amended): every backend driver failure during the execution step
is caught and re-raised as the single DatabaseException kind, whose
payload carries the statement as translated for the backend, the
supplied arguments and the underlying driver message; no other error
shape can escape the execution step. -/
theorem dbExecute_wraps_driver_errors (paramstyle : String)
    (backend : Command → Value → Except String Cursor) (elapsed : Nat)
    (st : DBState) (command : Command) (args : List Value)
    (cmd : Command) (params : Value) (msg : String)
    (h1 : translate paramstyle command args = .ok (cmd, params))
    (h2 : backend cmd params = .error msg) :
    (dbExecute paramstyle backend elapsed st command args).2 =
      .error (.databaseException cmd args msg) := by
  simp [dbExecute, h1, h2]

/-- C2 witness: a failing driver call surfaces as DatabaseException with
the translated statement, the arguments and the driver message. -/
theorem dbExecute_wraps_driver_errors_witness :
    (dbExecute "qmark" (fun _ _ => .error "bad statement") 0
        ⟨false, [], none, none⟩ [Tok.pos] [Value.int 5]).2 =
      .error (.databaseException [Tok.lit "?"] [Value.int 5] "bad statement") :=
  dbExecute_wraps_driver_errors "qmark" (fun _ _ => .error "bad statement") 0
    ⟨false, [], none, none⟩ [Tok.pos] [Value.int 5]
    [Tok.lit "?"] (Value.seq [Value.int 5]) "bad statement" rfl rfl

/-- C6: after a successful execution step, the call returns a lazy
Result over the cursor exactly when the cursor description is truthy
(non-empty row output), and otherwise returns the lastrowid of the
cursor. -/
theorem dbExecute_result_iff_row_output (paramstyle : String)
    (backend : Command → Value → Except String Cursor) (elapsed : Nat)
    (st : DBState) (command : Command) (args : List Value)
    (cmd : Command) (params : Value) (cursor : Cursor)
    (h1 : translate paramstyle command args = .ok (cmd, params))
    (h2 : backend cmd params = .ok cursor) :
    (descriptionTruthy cursor.description = true →
      (dbExecute paramstyle backend elapsed st command args).2 =
        .ok (.result ⟨cursor.rows, ARRAY_SIZE⟩))
    ∧ (descriptionTruthy cursor.description = false →
      (dbExecute paramstyle backend elapsed st command args).2 =
        .ok (.inserted cursor.lastrowid)) := by
  constructor <;> intro hd <;> simp [dbExecute, h1, h2, hd]

/-- C6 witness: a statement with row output yields a Result over the
cursor rows. -/
theorem dbExecute_result_iff_row_output_witness :
    (dbExecute "pyformat" (fun _ _ => .ok ⟨1, some ["id"], some 7, [[Value.int 1]]⟩)
        0 ⟨false, [], none, none⟩ [Tok.lit "select 1"] []).2 =
      .ok (.result ⟨[[Value.int 1]], ARRAY_SIZE⟩) :=
  (dbExecute_result_iff_row_output "pyformat"
    (fun _ _ => .ok ⟨1, some ["id"], some 7, [[Value.int 1]]⟩)
    0 ⟨false, [], none, none⟩ [Tok.lit "select 1"] []
    [Tok.lit "select 1"] (Value.seq []) ⟨1, some ["id"], some 7, [[Value.int 1]]⟩
    rfl rfl).1 rfl

/-- C7: with debug enabled, every execute call whose translation
succeeds appends exactly one trace entry (elapsed time, translated
statement, arguments), whether the backend call succeeds or raises;
with debug disabled the log is never appended to. -/
theorem dbExecute_debug_log_discipline (paramstyle : String)
    (backend : Command → Value → Except String Cursor) (elapsed : Nat)
    (st : DBState) (command : Command) (args : List Value) :
    (∀ cmd params, st.debug = true →
      translate paramstyle command args = .ok (cmd, params) →
      (dbExecute paramstyle backend elapsed st command args).1.log =
        st.log ++ [⟨elapsed, cmd, args⟩])
    ∧ (st.debug = false →
      (dbExecute paramstyle backend elapsed st command args).1.log = st.log) := by
  constructor
  · intro cmd params hdbg htr
    cases hbk : backend cmd params with
    | error msg => simp [dbExecute, htr, hbk, appendLog, hdbg]
    | ok cursor =>
      by_cases hd : descriptionTruthy cursor.description <;>
        simp [dbExecute, htr, hbk, appendLog, hdbg, hd]
  · intro hdbg
    cases htr : translate paramstyle command args with
    | error e => simp [dbExecute, htr]
    | ok pr =>
      obtain ⟨cmd, params⟩ := pr
      cases hbk : backend cmd params with
      | error msg => simp [dbExecute, htr, hbk, appendLog, hdbg]
      | ok cursor =>
        by_cases hd : descriptionTruthy cursor.description <;>
          simp [dbExecute, htr, hbk, appendLog, hdbg, hd]

/-- C7 witness: with debug on, one entry carrying the elapsed time, the
statement and the arguments is appended on a successful call. -/
theorem dbExecute_debug_log_discipline_witness :
    (dbExecute "pyformat" (fun _ _ => .ok ⟨1, none, some 3, []⟩) 5
        ⟨true, [], none, none⟩ [Tok.lit "insert"] []).1.log =
      [] ++ [⟨5, [Tok.lit "insert"], []⟩] :=
  (dbExecute_debug_log_discipline "pyformat" (fun _ _ => .ok ⟨1, none, some 3, []⟩)
    5 ⟨true, [], none, none⟩ [Tok.lit "insert"] []).1
    [Tok.lit "insert"] (Value.seq []) rfl rfl

/-- C1 counterexample: with a statement holding three %s markers and two
arguments whose first is a three-element sequence, translate substitutes
one ? marker per element of the first argument, while the claimed
contract (per-scalar count outside the single-sequence case) fails with
a placeholder count mismatch. -/
theorem translate_qmark_claimed_counterexample :
    translate "qmark" [Tok.pos, Tok.pos, Tok.pos]
        [Value.seq [Value.int 1, Value.int 2, Value.int 3], Value.int 4] =
      .ok ([Tok.lit "?", Tok.lit "?", Tok.lit "?"],
        Value.seq [Value.seq [Value.int 1, Value.int 2, Value.int 3], Value.int 4])
    ∧ translateQmarkClaimed [Tok.pos, Tok.pos, Tok.pos]
        [Value.seq [Value.int 1, Value.int 2, Value.int 3], Value.int 4] = .error ()
    ∧ translate "qmark" [Tok.pos, Tok.pos, Tok.pos]
        [Value.seq [Value.int 1, Value.int 2, Value.int 3], Value.int 4] ≠
      translateQmarkClaimed [Tok.pos, Tok.pos, Tok.pos]
        [Value.seq [Value.int 1, Value.int 2, Value.int 3], Value.int 4] := by
  refine ⟨rfl, rfl, fun hcontra => ?_⟩
  rw [show translate "qmark" [Tok.pos, Tok.pos, Tok.pos]
        [Value.seq [Value.int 1, Value.int 2, Value.int 3], Value.int 4] =
      Except.ok (([Tok.lit "?", Tok.lit "?", Tok.lit "?"],
        Value.seq [Value.seq [Value.int 1, Value.int 2, Value.int 3],
          Value.int 4])) from rfl,
    show translateQmarkClaimed [Tok.pos, Tok.pos, Tok.pos]
        [Value.seq [Value.int 1, Value.int 2, Value.int 3], Value.int 4] =
      Except.error () from rfl] at hcontra
  exact Except.noConfusion hcontra

/-- C1 (amended): on a qmark backend, translate follows the amended
contract: a single non-empty mapping argument rewrites named markers to
:key and passes the mapping through; an empty mapping falls to the
positional branch; the placeholder count is per element of the first
argument whenever that argument is a non-string sequence, else per
argument; the argument tuple is passed through in the positional
branches. -/
theorem translate_qmark_amended_contract (command : Command) (args : List Value) :
    translate "qmark" command args = translateQmarkAmended command args := by
  cases args with
  | nil => rfl
  | cons v rest =>
    cases v with
    | int n => rfl
    | str s => rfl
    | null => rfl
    | seq l => rfl
    | map m =>
      cases rest with
      | nil =>
        by_cases h : m.isEmpty <;> simp [translate, translateQmarkAmended, h]
      | cons w rest2 => simp [translate, translateQmarkAmended]

/-- C3: with direct membership in group 1 only and subgroup rows making
group 1 a subgroup of group 2 and group 2 a subgroup of group 3, the
resolved id closure is exactly the set of the three group ids and
get_groups returns their three names. -/
theorem get_groups_chain_closure :
    (group_id_closure [1] [(2, 1), (3, 2)]).toFinset = ({1, 2, 3} : Finset Nat)
    ∧ get_groups [1] [(2, 1), (3, 2)] [(1, "G1"), (2, "G2"), (3, "G3")] =
        ["G1", "G2", "G3"] :=
  ⟨by decide, by decide⟩

/-- C4: group expansion is total and bounded: every id it returns is the
expanded group itself or the parent side of some subgroup row; the loop
step never recurses into a parent already present in the running result
of the current expansion; an exhausted depth budget (depth 10 in the
source, fuel 0 here) stops expansion at once; and on the cyclic edge set
1-in-2, 2-in-1 the expansion terminates with an explicit bounded
result. -/
theorem get_memberships_terminates_bounded :
    (∀ (sg : List (Nat × Nat)) (fuel group x : Nat),
        x ∈ get_memberships sg fuel group → x = group ∨ x ∈ sg.map Prod.fst)
    ∧ (∀ (expand : Nat → List Nat) (group : Nat) (res : List Nat)
        (p : Nat × Nat), p.1 ∈ res → gmStep expand group res p = res)
    ∧ (∀ (sg : List (Nat × Nat)) (group : Nat),
        get_memberships sg 0 group = [group])
    ∧ get_memberships [(2, 1), (1, 2)] 10 1 =
        [1, 2, 1, 2, 1, 2, 1, 2, 1, 2, 1] := by
  refine ⟨?_, ?_, fun sg group => rfl, by decide⟩
  · intro sg fuel
    induction fuel with
    | zero =>
      intro group x hx
      simp [get_memberships] at hx
      exact Or.inl hx
    | succ f ih =>
      intro group x hx
      simp only [get_memberships] at hx
      have aux : ∀ (l : List (Nat × Nat)), (∀ p ∈ l, p ∈ sg) →
          ∀ (acc : List Nat), (∀ y ∈ acc, y = group ∨ y ∈ sg.map Prod.fst) →
          ∀ y ∈ List.foldl (gmStep (fun g => get_memberships sg f g) group)
            acc l, y = group ∨ y ∈ sg.map Prod.fst := by
        intro l
        induction l with
        | nil =>
          intro _ acc hacc y hy
          exact hacc y (by simpa using hy)
        | cons p rest ihl =>
          intro hsub acc hacc y hy
          simp only [List.foldl_cons] at hy
          refine ihl (fun q hq => hsub q (List.mem_cons_of_mem p hq))
            (gmStep (fun g => get_memberships sg f g) group acc p) ?_ y hy
          intro z hz
          by_cases hc : group = p.2 ∧ p.1 ∉ acc
          · rw [gmStep, if_pos hc] at hz
            rcases List.mem_append.mp hz with hz1 | hz2
            · exact hacc z hz1
            · rcases ih p.1 z hz2 with rfl | hmem
              · exact Or.inr (List.mem_map.mpr
                  ⟨p, hsub p (List.mem_cons_self p rest), rfl⟩)
              · exact Or.inr hmem
          · rw [gmStep, if_neg hc] at hz
            exact hacc z hz
      exact aux sg (fun p hp => hp) [group]
        (by intro y hy; simp at hy; exact Or.inl hy) x hx
  · intro expand group res p hp
    simp [gmStep, hp]

/-- C4 witness: the boundedness clause applied to a concrete expansion:
id 2 returned by expanding group 1 over the single row (2, 1) is the
parent side of that row. -/
theorem get_memberships_terminates_bounded_witness :
    2 = 1 ∨ 2 ∈ ([(2, 1)] : List (Nat × Nat)).map Prod.fst :=
  get_memberships_terminates_bounded.1 [(2, 1)] 10 1 2 (by decide)

/-- C8 counterexample: get_groups emits names in the order of the groups
lookup rows, not in discovery order of the closure expansion (closure
discovers id 2 before id 1, yet the name of id 1 comes out first), and
the name sequence can hold duplicates when two closure ids share a
name. -/
theorem get_groups_order_counterexample :
    get_groups [1, 2] [] [(1, "A"), (2, "A")] = ["A", "A"]
    ∧ ¬ (["A", "A"] : List String).Nodup
    ∧ get_groups [2] [(1, 2)] [(1, "A"), (2, "B")] = ["A", "B"]
    ∧ get_groups_claimed [2] [(1, 2)] [(1, "A"), (2, "B")] = ["B", "A"]
    ∧ get_groups [2] [(1, 2)] [(1, "A"), (2, "B")] ≠
        get_groups_claimed [2] [(1, 2)] [(1, "A"), (2, "B")] :=
  ⟨by decide, by decide, by decide, by decide, by decide⟩

/-- Folding the groups rows accumulates exactly the filtered, stripped
name column in row order. -/
theorem get_groups_foldl_eq (groups : List Nat) (tbl : List (Nat × String))
    (acc : List String) :
    List.foldl
        (fun acc r => if r.1 ∈ groups then acc ++ [strip r.2] else acc)
        acc tbl =
      acc ++ (tbl.filter (fun r => decide (r.1 ∈ groups))).map
        (fun r => strip r.2) := by
  induction tbl generalizing acc with
  | nil => simp
  | cons r rest ih =>
    by_cases h : r.1 ∈ groups <;> simp [h, ih]

/-- C8 (amended): the name sequence get_groups returns is the groups
lookup rows whose id lies in the resolved id closure, in row order of
that lookup (not discovery order), each name stripped of surrounding
whitespace; names repeat exactly when distinct qualifying rows share a
stripped name. -/
theorem get_groups_is_table_filter (my_groups : List Nat)
    (subgroups : List (Nat × Nat)) (groupsTable : List (Nat × String)) :
    get_groups my_groups subgroups groupsTable =
      (groupsTable.filter
        (fun r => decide (r.1 ∈ group_id_closure my_groups subgroups))).map
        (fun r => strip r.2) := by
  have h := get_groups_foldl_eq (group_id_closure my_groups subgroups)
    groupsTable []
  simpa [get_groups] using h

/-- After one full iteration, the fetch state left behind has no next
batch: the cursor is exhausted (or, with batch size zero, the iteration
never yields and never advances). -/
theorem iterRun_leaves_exhausted (n : Nat) (rows : List (List Value)) :
    ((iterRun n rows).2).take n = [] := by
  induction rows using iterRun.induct n with
  | case1 x hx =>
    rw [iterRun, dif_pos hx]
    exact List.isEmpty_iff.mp hx
  | case2 x hx ih =>
    rw [iterRun, dif_neg hx]
    exact ih

/-- Iterating over the fetch state a full iteration leaves behind yields
nothing. -/
theorem iterRun_twice (n : Nat) (rows : List (List Value)) :
    (iterRun n ((iterRun n rows).2)).1 = [] := by
  have h := iterRun_leaves_exhausted n rows
  generalize (iterRun n rows).2 = X at h ⊢
  rw [iterRun]
  simp [h]

/-- C9: a Result is forward-only: once one full iteration has consumed
its cursor, iterating the same Result again without re-executing the
query yields no rows. -/
theorem result_iter_forward_only (r : Result) :
    ((r.iter).2).iter.1 = [] := by
  simp only [Result.iter]
  exact iterRun_twice r.array_size r.rows

end Zoom
